import Mathlib

set_option maxRecDepth 4000

/-!
Verification development for the WebSocket server (src/WebSocket.js, revision 2).

Bytes are modelled as `Nat` (Buffer entries, always < 256 in practice); buffers
are `List Nat`.  JavaScript reading past the end of a Buffer with `b[i]` yields
`undefined`, and `undefined & m` evaluates to `0`, so out-of-range indexed reads
are modelled by `List.getD _ 0`.  `Buffer.readUInt16BE` / `readUInt32BE` throw a
RangeError when out of range; they are modelled as `Option`-returning reads and
the throw is surfaced as a `fault` result.
-/

/-- Model of Node's `Buffer.readUInt16BE` (throws out of range → `none`). -/
def readUInt16BE (b : List Nat) (off : Nat) : Option Nat :=
  if off + 2 ≤ b.length then some (b.getD off 0 * 256 + b.getD (off + 1) 0) else none

/-- Model of Node's `Buffer.readUInt32BE` (throws out of range → `none`). -/
def readUInt32BE (b : List Nat) (off : Nat) : Option Nat :=
  if off + 4 ≤ b.length then
    some (b.getD off 0 * 16777216 + b.getD (off + 1) 0 * 65536 +
          b.getD (off + 2) 0 * 256 + b.getD (off + 3) 0)
  else none

/-- A decoded frame, mirroring the object literal returned by `#decode`. -/
structure Frame where
  FIN : Bool
  opcode : Nat
  payloadLength : Nat
  payloadData : List Nat
  next : List Nat
  waiting : Bool
deriving DecidableEq

/-- Result of `#decode`: `invalid` is the JS `null` return, `fault` is a
RangeError thrown by an out-of-range `readUIntNBE`, `ok f` is a frame object. -/
inductive DecodeResult where
  | invalid
  | fault
  | ok (f : Frame)
deriving DecidableEq

/-- The XOR-unmasking loop of `#decode`
(`payloadData[i] = payloadData[i] ^ maskingKey[i % 4]`), with the running index
made explicit. -/
def unmaskFrom (key : List Nat) : Nat → List Nat → List Nat
  | _, [] => []
  | i, v :: rest => (v ^^^ key.getD (i % 4) 0) :: unmaskFrom key (i + 1) rest

/-- Length-header parsing of `#decode`: outer `none` = RangeError (`fault`),
`some none` = nonzero high 32 bits of a 64-bit length (`null` in JS),
`some (some (payloadLength, index))` = parsed length and header end offset. -/
def headerInfo (payload : List Nat) : Option (Option (Nat × Nat)) :=
  let len7 := payload.getD 1 0 &&& 127
  if len7 == 126 then
    match readUInt16BE payload 2 with
    | none => none
    | some n => some (some (n, 4))
  else if len7 == 127 then
    match readUInt32BE payload 2 with
    | none => none
    | some hi =>
      if hi != 0 then some none
      else
        match readUInt32BE payload 6 with
        | none => none
        | some n => some (some (n, 10))
  else some (some (len7, 2))

/-- `#decode` (WebSocket.js rev 2, lines 1054-1142). -/
def decode (payload : List Nat) : DecodeResult :=
  if !(payload.getD 1 0 &&& 128 == 128) then .invalid
  else
    match headerInfo payload with
    | none => .fault
    | some none => .invalid
    | some (some (payloadLength, index)) =>
      if index + 4 + payloadLength ≤ payload.length then
        .ok { FIN := payload.getD 0 0 &&& 128 == 128
              opcode := payload.getD 0 0 &&& 15
              payloadLength := payloadLength
              payloadData := unmaskFrom ((payload.drop index).take 4) 0
                               ((payload.drop (index + 4)).take payloadLength)
              next := payload.drop (index + 4 + payloadLength)
              waiting := false }
      else
        .ok { FIN := payload.getD 0 0 &&& 128 == 128
              opcode := payload.getD 0 0 &&& 15
              payloadLength := payloadLength
              payloadData := []
              next := payload
              waiting := true }

/-- `#encode` (WebSocket.js rev 2, lines 1144-1177).  Node's
`writeUInt32BE(size, 6)` throws for `size ≥ 2^32`, hence the `none` case (the
source has no branch for it; the exception is the fourth byte-layout outcome). -/
def encode (message : List Nat) (opcode : Nat) : Option (List Nat) :=
  let size := message.length
  if size ≤ 125 then
    some ((128 ||| opcode) :: size :: message)
  else if size ≤ 65535 then
    some ((128 ||| opcode) :: 126 :: size / 256 :: size % 256 :: message)
  else if size ≤ 4294967295 then
    some ((128 ||| opcode) :: 127 :: 0 :: 0 :: 0 :: 0 ::
          size / 16777216 % 256 :: size / 65536 % 256 :: size / 256 % 256 ::
          size % 256 :: message)
  else none

/-- Modelled from the spec: the test-only masking wrapper used to exercise the
round-trip law (`encode` emits unmasked frames, `decode` requires MASK = 1).
It sets the MASK bit, inserts the 4-byte key after the length field, and
XOR-masks the payload with the key repeated with period 4. -/
def maskStream (s k : List Nat) : List Nat :=
  let b1 := s.getD 1 0
  let len7 := b1 &&& 127
  let extLen := if len7 == 126 then 2 else if len7 == 127 then 8 else 0
  (s.getD 0 0 :: (b1 ||| 128) :: (s.drop 2).take extLen) ++ k ++
    unmaskFrom k 0 (s.drop (2 + extLen))

theorem small_and127 : ∀ n : Nat, n < 128 → n &&& 127 = n := by decide

theorem lor128_and128 : ∀ n : Nat, n < 128 → (n ||| 128) &&& 128 = 128 := by decide

theorem lor128_and127 : ∀ n : Nat, n < 128 → (n ||| 128) &&& 127 = n := by decide

theorem fin_opcode_bits : ∀ op : Nat, op < 16 →
    (128 ||| op) &&& 128 = 128 ∧ (128 ||| op) &&& 15 = op := by decide

theorem unmaskFrom_length (key : List Nat) : ∀ (i : Nat) (l : List Nat),
    (unmaskFrom key i l).length = l.length := by
  intro i l
  induction l generalizing i with
  | nil => rfl
  | cons v rest ih => simp [unmaskFrom, ih]

theorem unmaskFrom_unmaskFrom (key : List Nat) : ∀ (i : Nat) (l : List Nat),
    unmaskFrom key i (unmaskFrom key i l) = l := by
  intro i l
  induction l generalizing i with
  | nil => rfl
  | cons v rest ih =>
    simp [unmaskFrom, ih, Nat.xor_assoc, Nat.xor_self, Nat.xor_zero]

theorem exists_four_of_length_four (k : List Nat) (hk : k.length = 4) :
    ∃ a b c d : Nat, k = [a, b, c, d] := by
  match k with
  | [a, b, c, d] => exact ⟨a, b, c, d, rfl⟩
  | [] => simp at hk
  | [_] => simp at hk
  | [_, _] => simp at hk
  | [_, _, _] => simp at hk
  | _ :: _ :: _ :: _ :: _ :: _ => simp at hk

theorem roundtrip_small (p k : List Nat) (op : Nat)
    (hop : op < 16) (hk : k.length = 4) (hn : p.length ≤ 125) :
    decode (maskStream ((128 ||| op) :: p.length :: p) k) =
      .ok { FIN := true, opcode := op, payloadLength := p.length,
            payloadData := p, next := [], waiting := false } := by
  obtain ⟨k0, k1, k2, k3, rfl⟩ : ∃ a b c d : Nat, k = [a, b, c, d] := by
    match k with
    | [a, b, c, d] => exact ⟨a, b, c, d, rfl⟩
  set n := p.length with hnd
  have h127 : n &&& 127 = n := small_and127 n (by omega)
  have h126ne : (n == 126) = false := by simp; omega
  have h127ne : (n == 127) = false := by simp; omega
  have hstream : maskStream ((128 ||| op) :: n :: p) [k0,k1,k2,k3] =
      (128 ||| op) :: (n ||| 128) :: k0 :: k1 :: k2 :: k3 ::
        unmaskFrom [k0,k1,k2,k3] 0 p := by
    simp [maskStream, h127, h126ne, h127ne]
  rw [hstream]
  have hmaskbit : ((n ||| 128) &&& 128 == 128) = true := by
    simp [lor128_and128 n (by omega)]
  have hlen7 : (n ||| 128) &&& 127 = n := lor128_and127 n (by omega)
  have hblen : (unmaskFrom [k0,k1,k2,k3] 0 p).length = n := unmaskFrom_length ..
  have hhdr : headerInfo ((128 ||| op) :: (n ||| 128) :: k0 :: k1 :: k2 :: k3 ::
      unmaskFrom [k0,k1,k2,k3] 0 p) = some (some (n, 2)) := by
    simp [headerInfo, hlen7, h126ne, h127ne]
  have hfin := (fin_opcode_bits op hop).1
  have hopc := (fin_opcode_bits op hop).2
  simp only [decode, hhdr, hmaskbit, Bool.not_true, Bool.false_eq_true, if_false]
  have hln : 2 + 4 + n ≤ ((128 ||| op) :: (n ||| 128) :: k0 :: k1 :: k2 :: k3 ::
      unmaskFrom [k0,k1,k2,k3] 0 p).length := by
    simp [hblen]
    omega
  rw [if_pos hln]
  have hdrop6 : ((128 ||| op) :: (n ||| 128) :: k0 :: k1 :: k2 :: k3 ::
      unmaskFrom [k0,k1,k2,k3] 0 p).drop (2 + 4) = unmaskFrom [k0,k1,k2,k3] 0 p := rfl
  have hdropN : ((128 ||| op) :: (n ||| 128) :: k0 :: k1 :: k2 :: k3 ::
      unmaskFrom [k0,k1,k2,k3] 0 p).drop (2 + 4 + n) = [] := by
    have h : 2 + 4 + n = n + 6 := by omega
    rw [h]
    show (unmaskFrom [k0,k1,k2,k3] 0 p).drop n = []
    rw [← hblen]
    exact List.drop_length _
  have htake : (unmaskFrom [k0,k1,k2,k3] 0 p).take n = unmaskFrom [k0,k1,k2,k3] 0 p := by
    rw [← hblen]; exact List.take_length _
  simp only [hdrop6, hdropN, htake]
  have hkey : (((128 ||| op) :: (n ||| 128) :: k0 :: k1 :: k2 :: k3 ::
      unmaskFrom [k0,k1,k2,k3] 0 p).drop 2).take 4 = [k0,k1,k2,k3] := rfl
  rw [hkey]
  simp [hfin, hopc, unmaskFrom_unmaskFrom, lor128_and128 n (by omega : n < 128)]

theorem roundtrip_mid (p k : List Nat) (op : Nat)
    (hop : op < 16) (hk : k.length = 4) (hlo : 126 ≤ p.length) (hhi : p.length ≤ 65535) :
    decode (maskStream ((128 ||| op) :: 126 :: p.length / 256 :: p.length % 256 :: p) k) =
      .ok { FIN := true, opcode := op, payloadLength := p.length,
            payloadData := p, next := [], waiting := false } := by
  obtain ⟨k0, k1, k2, k3, rfl⟩ : ∃ a b c d : Nat, k = [a, b, c, d] := by
    match k with
    | [a, b, c, d] => exact ⟨a, b, c, d, rfl⟩
  set n := p.length with hnd
  have hblen : (unmaskFrom [k0,k1,k2,k3] 0 p).length = n := unmaskFrom_length ..
  have hstream : maskStream ((128 ||| op) :: 126 :: n / 256 :: n % 256 :: p) [k0,k1,k2,k3] =
      (128 ||| op) :: 254 :: n / 256 :: n % 256 :: k0 :: k1 :: k2 :: k3 ::
        unmaskFrom [k0,k1,k2,k3] 0 p := by
    simp [maskStream, (by decide : (126:Nat) &&& 127 = 126), (by decide : (126:Nat) ||| 128 = 254)]
  rw [hstream]
  have hslen : ((128 ||| op) :: 254 :: n / 256 :: n % 256 :: k0 :: k1 :: k2 :: k3 ::
      unmaskFrom [k0,k1,k2,k3] 0 p).length = 8 + n := by
    simp [hblen]
    omega
  have hr16 : readUInt16BE ((128 ||| op) :: 254 :: n / 256 :: n % 256 :: k0 :: k1 :: k2 :: k3 ::
      unmaskFrom [k0,k1,k2,k3] 0 p) 2 = some n := by
    rw [readUInt16BE, if_pos (by omega)]
    show some (n / 256 * 256 + n % 256) = some n
    congr 1
    omega
  have hhdr : headerInfo ((128 ||| op) :: 254 :: n / 256 :: n % 256 :: k0 :: k1 :: k2 :: k3 ::
      unmaskFrom [k0,k1,k2,k3] 0 p) = some (some (n, 4)) := by
    have hgl : List.getD ((128 ||| op) :: 254 :: n / 256 :: n % 256 :: k0 :: k1 :: k2 :: k3 ::
        unmaskFrom [k0,k1,k2,k3] 0 p) 1 0 = 254 := rfl
    simp [headerInfo, hgl, hr16, (by decide : (254:Nat) &&& 127 = 126)]
  have hg1 : List.getD ((128 ||| op) :: 254 :: n / 256 :: n % 256 :: k0 :: k1 :: k2 :: k3 ::
      unmaskFrom [k0,k1,k2,k3] 0 p) 1 0 = 254 := rfl
  have hln : 4 + 4 + n ≤ ((128 ||| op) :: 254 :: n / 256 :: n % 256 :: k0 :: k1 :: k2 :: k3 ::
      unmaskFrom [k0,k1,k2,k3] 0 p).length := by omega
  have hdrop8 : ((128 ||| op) :: 254 :: n / 256 :: n % 256 :: k0 :: k1 :: k2 :: k3 ::
      unmaskFrom [k0,k1,k2,k3] 0 p).drop (4 + 4) = unmaskFrom [k0,k1,k2,k3] 0 p := rfl
  have hdropN : ((128 ||| op) :: 254 :: n / 256 :: n % 256 :: k0 :: k1 :: k2 :: k3 ::
      unmaskFrom [k0,k1,k2,k3] 0 p).drop (4 + 4 + n) = [] := by
    have h : 4 + 4 + n = n + 8 := by omega
    rw [h]
    show (unmaskFrom [k0,k1,k2,k3] 0 p).drop n = []
    rw [← hblen]
    exact List.drop_length _
  have htake : (unmaskFrom [k0,k1,k2,k3] 0 p).take n = unmaskFrom [k0,k1,k2,k3] 0 p := by
    rw [← hblen]; exact List.take_length _
  have hkey : (((128 ||| op) :: 254 :: n / 256 :: n % 256 :: k0 :: k1 :: k2 :: k3 ::
      unmaskFrom [k0,k1,k2,k3] 0 p).drop 4).take 4 = [k0,k1,k2,k3] := rfl
  simp only [decode, hhdr, hg1, (by decide : (((254:Nat) &&& 128) == 128) = true),
    Bool.not_true, Bool.false_eq_true, if_false]
  rw [if_pos hln]
  simp only [hdrop8, hdropN, htake, hkey]
  simp [(fin_opcode_bits op hop).1, (fin_opcode_bits op hop).2, unmaskFrom_unmaskFrom]

theorem roundtrip_large (p k : List Nat) (op : Nat)
    (hop : op < 16) (hk : k.length = 4) (hlo : 65536 ≤ p.length) (hhi : p.length ≤ 4294967295) :
    decode (maskStream ((128 ||| op) :: 127 :: 0 :: 0 :: 0 :: 0 ::
        p.length / 16777216 % 256 :: p.length / 65536 % 256 :: p.length / 256 % 256 ::
        p.length % 256 :: p) k) =
      .ok { FIN := true, opcode := op, payloadLength := p.length,
            payloadData := p, next := [], waiting := false } := by
  obtain ⟨k0, k1, k2, k3, rfl⟩ : ∃ a b c d : Nat, k = [a, b, c, d] := by
    match k with
    | [a, b, c, d] => exact ⟨a, b, c, d, rfl⟩
  set n := p.length with hnd
  have hblen : (unmaskFrom [k0,k1,k2,k3] 0 p).length = n := unmaskFrom_length ..
  have hstream : maskStream ((128 ||| op) :: 127 :: 0 :: 0 :: 0 :: 0 ::
      n / 16777216 % 256 :: n / 65536 % 256 :: n / 256 % 256 :: n % 256 :: p) [k0,k1,k2,k3] =
      (128 ||| op) :: 255 :: 0 :: 0 :: 0 :: 0 ::
        n / 16777216 % 256 :: n / 65536 % 256 :: n / 256 % 256 :: n % 256 ::
        k0 :: k1 :: k2 :: k3 :: unmaskFrom [k0,k1,k2,k3] 0 p := by
    simp [maskStream, (by decide : (127:Nat) &&& 127 = 127), (by decide : (127:Nat) ||| 128 = 255)]
  rw [hstream]
  have hslen : ((128 ||| op) :: 255 :: 0 :: 0 :: 0 :: 0 ::
      n / 16777216 % 256 :: n / 65536 % 256 :: n / 256 % 256 :: n % 256 ::
      k0 :: k1 :: k2 :: k3 :: unmaskFrom [k0,k1,k2,k3] 0 p).length = 14 + n := by
    simp [hblen]
    omega
  have hrHi : readUInt32BE ((128 ||| op) :: 255 :: 0 :: 0 :: 0 :: 0 ::
      n / 16777216 % 256 :: n / 65536 % 256 :: n / 256 % 256 :: n % 256 ::
      k0 :: k1 :: k2 :: k3 :: unmaskFrom [k0,k1,k2,k3] 0 p) 2 = some 0 := by
    rw [readUInt32BE, if_pos (by omega)]
    show some ((0:Nat) * 16777216 + 0 * 65536 + 0 * 256 + 0) = some 0
    norm_num
  have hrLo : readUInt32BE ((128 ||| op) :: 255 :: 0 :: 0 :: 0 :: 0 ::
      n / 16777216 % 256 :: n / 65536 % 256 :: n / 256 % 256 :: n % 256 ::
      k0 :: k1 :: k2 :: k3 :: unmaskFrom [k0,k1,k2,k3] 0 p) 6 = some n := by
    rw [readUInt32BE, if_pos (by omega)]
    show some (n / 16777216 % 256 * 16777216 + n / 65536 % 256 * 65536 +
               n / 256 % 256 * 256 + n % 256) = some n
    congr 1
    omega
  have hhdr : headerInfo ((128 ||| op) :: 255 :: 0 :: 0 :: 0 :: 0 ::
      n / 16777216 % 256 :: n / 65536 % 256 :: n / 256 % 256 :: n % 256 ::
      k0 :: k1 :: k2 :: k3 :: unmaskFrom [k0,k1,k2,k3] 0 p) = some (some (n, 10)) := by
    have hgl : List.getD ((128 ||| op) :: 255 :: 0 :: 0 :: 0 :: 0 ::
        n / 16777216 % 256 :: n / 65536 % 256 :: n / 256 % 256 :: n % 256 ::
        k0 :: k1 :: k2 :: k3 :: unmaskFrom [k0,k1,k2,k3] 0 p) 1 0 = 255 := rfl
    simp [headerInfo, hgl, hrHi, hrLo, (by decide : (255:Nat) &&& 127 = 127)]
  have hg1 : List.getD ((128 ||| op) :: 255 :: 0 :: 0 :: 0 :: 0 ::
      n / 16777216 % 256 :: n / 65536 % 256 :: n / 256 % 256 :: n % 256 ::
      k0 :: k1 :: k2 :: k3 :: unmaskFrom [k0,k1,k2,k3] 0 p) 1 0 = 255 := rfl
  have hln : 10 + 4 + n ≤ ((128 ||| op) :: 255 :: 0 :: 0 :: 0 :: 0 ::
      n / 16777216 % 256 :: n / 65536 % 256 :: n / 256 % 256 :: n % 256 ::
      k0 :: k1 :: k2 :: k3 :: unmaskFrom [k0,k1,k2,k3] 0 p).length := by omega
  have hdrop14 : ((128 ||| op) :: 255 :: 0 :: 0 :: 0 :: 0 ::
      n / 16777216 % 256 :: n / 65536 % 256 :: n / 256 % 256 :: n % 256 ::
      k0 :: k1 :: k2 :: k3 :: unmaskFrom [k0,k1,k2,k3] 0 p).drop (10 + 4) =
      unmaskFrom [k0,k1,k2,k3] 0 p := rfl
  have hdropN : ((128 ||| op) :: 255 :: 0 :: 0 :: 0 :: 0 ::
      n / 16777216 % 256 :: n / 65536 % 256 :: n / 256 % 256 :: n % 256 ::
      k0 :: k1 :: k2 :: k3 :: unmaskFrom [k0,k1,k2,k3] 0 p).drop (10 + 4 + n) = [] := by
    have h : 10 + 4 + n = n + 14 := by omega
    rw [h]
    show (unmaskFrom [k0,k1,k2,k3] 0 p).drop n = []
    rw [← hblen]
    exact List.drop_length _
  have htake : (unmaskFrom [k0,k1,k2,k3] 0 p).take n = unmaskFrom [k0,k1,k2,k3] 0 p := by
    rw [← hblen]; exact List.take_length _
  have hkey : (((128 ||| op) :: 255 :: 0 :: 0 :: 0 :: 0 ::
      n / 16777216 % 256 :: n / 65536 % 256 :: n / 256 % 256 :: n % 256 ::
      k0 :: k1 :: k2 :: k3 :: unmaskFrom [k0,k1,k2,k3] 0 p).drop 10).take 4 = [k0,k1,k2,k3] := rfl
  simp only [decode, hhdr, hg1, (by decide : (((255:Nat) &&& 128) == 128) = true),
    Bool.not_true, Bool.false_eq_true, if_false]
  rw [if_pos hln]
  simp only [hdrop14, hdropN, htake, hkey]
  simp [(fin_opcode_bits op hop).1, (fin_opcode_bits op hop).2, unmaskFrom_unmaskFrom]

/-- Claim C1: for every payload `p` (within the spec's declared scope
`|p| ≤ 2^32 - 1`), every opcode `op` in 0..15 and every 4-byte masking key `k`,
decoding `encode(p, op)` masked with `k` yields FIN = true, opcode = `op`,
payloadLength = `|p|`, payloadData = `p`, waiting = false and an empty
remainder; in particular XOR-unmasking with `k` repeated with period 4 recovers
`p` exactly. -/
theorem decode_mask_encode_roundtrip (p k : List Nat) (op : Nat)
    (hop : op < 16) (hk : k.length = 4) (hp : p.length ≤ 4294967295) :
    (encode p op).map (fun s => decode (maskStream s k)) =
      some (.ok { FIN := true, opcode := op, payloadLength := p.length,
                  payloadData := p, next := [], waiting := false }) := by
  by_cases h1 : p.length ≤ 125
  · have he : encode p op = some ((128 ||| op) :: p.length :: p) := by
      simp [encode, h1]
    rw [he]
    simp only [Option.map_some']
    rw [roundtrip_small p k op hop hk h1]
  · by_cases h2 : p.length ≤ 65535
    · have he : encode p op =
          some ((128 ||| op) :: 126 :: p.length / 256 :: p.length % 256 :: p) := by
        simp [encode, h1, h2]
      rw [he]
      simp only [Option.map_some']
      rw [roundtrip_mid p k op hop hk (by omega) h2]
    · have he : encode p op =
          some ((128 ||| op) :: 127 :: 0 :: 0 :: 0 :: 0 ::
            p.length / 16777216 % 256 :: p.length / 65536 % 256 ::
            p.length / 256 % 256 :: p.length % 256 :: p) := by
        simp [encode, h1, h2, hp]
      rw [he]
      simp only [Option.map_some']
      rw [roundtrip_large p k op hop hk (by omega) hp]

/-- Witness for C1 at the concrete payload [72, 105], opcode 1,
key [1, 2, 3, 4]. -/
theorem decode_mask_encode_roundtrip_witness :
    (encode [72, 105] 1).map (fun s => decode (maskStream s [1, 2, 3, 4])) =
      some (.ok { FIN := true, opcode := 1, payloadLength := 2,
                  payloadData := [72, 105], next := [], waiting := false }) := by
  have h := decode_mask_encode_roundtrip [72, 105] [1, 2, 3, 4] 1
    (by decide) (by decide) (by decide)
  rw [h]
  decide

/-- Claim C6 (counterexample): a buffer of fewer than 2 bytes does not produce
a waiting result: `payload[1]` is `undefined`, the MASK test reads it as 0,
and `#decode` returns `null` (invalid), not `waiting = true`. -/
theorem decode_one_byte_invalid : decode [129] = DecodeResult.invalid := by decide

/-- Claim C6 (amended): for every input buffer of at least 2 bytes whose MASK
bit is set and whose extended-length field is fully present
(`headerInfo b = some (some (len, idx))`), if the buffer is too short to hold
the complete frame then `#decode` returns waiting = true, empty payloadData and
remainder equal to the original input; a buffer of fewer than 2 bytes instead
yields invalid. -/
theorem decode_incomplete_waiting (b : List Nat) (len idx : Nat)
    (h2 : 2 ≤ b.length)
    (hm : b.getD 1 0 &&& 128 = 128)
    (hh : headerInfo b = some (some (len, idx)))
    (hshort : b.length < idx + 4 + len) :
    decode b = .ok { FIN := b.getD 0 0 &&& 128 == 128, opcode := b.getD 0 0 &&& 15,
                     payloadLength := len, payloadData := [], next := b,
                     waiting := true } := by
  have hc : (b.getD 1 0 &&& 128 == 128) = true := by rw [hm]; rfl
  simp only [decode, hc, Bool.not_true, Bool.false_eq_true, if_false, hh]
  rw [if_neg (by omega)]

/-- Witness for C6's amended statement at the concrete 2-byte buffer
[0x81, 0x85] (masked header announcing a 5-byte payload, no body yet). -/
theorem decode_incomplete_waiting_witness :
    decode [129, 133] =
      DecodeResult.ok ⟨true, 1, 5, [], [129, 133], true⟩ := by
  rw [decode_incomplete_waiting [129, 133] 5 2 (by decide) (by decide)
    (by decide) (by decide)]
  decide

/-!
Frame handler (the per-frame dispatch body of the `socket.on('data')` handler,
rev 2 lines 775-913) and the connection reader around it (lines 741-773).
`emit(customEvent, ...)` with a string argument (`.toString(encoding)`) is the
`message true` event; with a raw Buffer it is `message false`.
`emit('close', ...)` is the `close` event and `this.close(clientId)` is
`destroy`.  The ping/pong branches only manipulate timers (modelled separately)
and are surfaced as `pingReceived` / `pongReceived` events.
-/

inductive HandlerEvent where
  | message (isText : Bool) (payload : List Nat)
  | close (code : Nat) (msg : String)
  | destroy
  | pingReceived (payload : List Nat)
  | pongReceived (payload : List Nat)
deriving DecidableEq

/-- Result of processing one decoded frame: the updated `frames` array, the
events emitted, and the value assigned to the carry variable `next` by the
data-frame branches (`next = decoded.next`), if any. -/
structure StepOut where
  frames : List Frame
  events : List HandlerEvent
  setCarry : Option (List Nat)
deriving DecidableEq

/-- `frames.map(f => f.payloadLength).reduce((acc, cur) => acc + cur, 0)`. -/
def sumPayload (fs : List Frame) : Nat := (fs.map (·.payloadLength)).sum

/-- `fs.map(f => f.payloadData).reduce((acc, cur) => Buffer.concat([acc, cur]))`
for a non-empty `fs`. -/
def concatPayloads : List Frame → List Nat
  | [] => []
  | f :: r => f.payloadData ++ concatPayloads r

/-- One iteration of `for (let decoded of data)` (rev 2 lines 775-913).
`decoded = none` is the JS `null` (invalid frame).  The inner dead conditional
`if (decoded.opcode == 1)` of the continuation branch is kept as in the
source. -/
def handleFrame (maxPayload : Int) (frames : List Frame) (decoded : Option Frame) :
    StepOut :=
  match decoded with
  | none => ⟨frames, [.close 1003 "Unacceptable Data Type", .destroy], none⟩
  | some d =>
    if 0 < maxPayload ∧ maxPayload < ((d.payloadLength + sumPayload frames : Nat) : Int) then
      ⟨frames, [.close 1009 "Message Too Big", .destroy], none⟩
    else if d.opcode == 0 then
      if d.FIN && !d.waiting then
        if d.opcode == 1 then
          ⟨[], [.message true (concatPayloads (frames ++ [d]))], some d.next⟩
        else
          ⟨[], [.message false (concatPayloads (frames ++ [d]))], some d.next⟩
      else
        ⟨frames ++ [d], [], some d.next⟩
    else if d.opcode == 1 then
      if d.FIN && !d.waiting then
        ⟨frames, [.message true d.payloadData], some d.next⟩
      else
        ⟨frames ++ [d], [], some d.next⟩
    else if d.opcode == 2 then
      if d.FIN && !d.waiting then
        ⟨frames, [.message false d.payloadData], some d.next⟩
      else
        ⟨frames ++ [d], [], some d.next⟩
    else if 3 ≤ d.opcode ∧ d.opcode ≤ 7 then
      ⟨frames, [.close 1003 "Unacceptable Data Type", .destroy], none⟩
    else if d.opcode == 8 then
      ⟨frames, [.close 1000 "Close Normal", .destroy], none⟩
    else if d.opcode == 9 then
      if d.payloadLength ≤ 125 then ⟨frames, [.pingReceived d.payloadData], none⟩
      else ⟨frames, [.close 1003 "Unacceptable Data Type", .destroy], none⟩
    else if d.opcode == 10 then
      if d.payloadLength ≤ 125 then ⟨frames, [.pongReceived d.payloadData], none⟩
      else ⟨frames, [.close 1003 "Unacceptable Data Type", .destroy], none⟩
    else
      ⟨frames, [.close 1003 "Unacceptable Data Type", .destroy], none⟩

/-- The `while (true)` decode loop of the data handler (rev 2 lines 750-766):
keep decoding `data[index].next` while the current entry is non-null,
non-waiting and has a nonempty remainder, zeroing each consumed entry's
remainder.  `none` = a decode threw (RangeError propagates out of the
handler).  Fuel bounds the recursion; the input length + 1 always suffices. -/
def buildChain : Nat → DecodeResult → Option (List DecodeResult)
  | 0, r => some [r]
  | fuel + 1, r =>
    match r with
    | .fault => none
    | .invalid => some [.invalid]
    | .ok f =>
      if f.waiting = false ∧ f.next ≠ [] then
        match buildChain fuel (decode f.next) with
        | none => none
        | some rest => some (.ok { f with next := [] } :: rest)
      else some [.ok f]

/-- Folding the handler over the decoded entries of one read, threading the
`frames` array and the carry variable `next`. -/
structure DispatchOut where
  frames : List Frame
  carry : List Nat
  events : List HandlerEvent
deriving DecidableEq

def dispatchList (mp : Int) : List Frame → List Nat → List DecodeResult → DispatchOut
  | frames, carry, [] => ⟨frames, carry, []⟩
  | frames, carry, r :: rest =>
    let o := handleFrame mp frames (match r with | .ok f => some f | _ => none)
    let d := dispatchList mp o.frames (o.setCarry.getD carry) rest
    ⟨d.frames, d.carry, o.events ++ d.events⟩

/-- Per-connection reader state: the carry buffer `next`, the pending
fragment array `frames`, and whether the client is still registered. -/
structure ConnState where
  carry : List Nat
  frames : List Frame
  alive : Bool
deriving DecidableEq

/-- One `socket.on('data')` invocation (rev 2 lines 741-919): concatenate the
carry with the chunk, decode repeatedly, and either hold back a waiting final
result (dispatching nothing) or dispatch every entry.  `none` = the handler
threw.  A `destroy` event removes the client from the registry. -/
def dataEvent (mp : Int) (st : ConnState) (chunk : List Nat) :
    Option (ConnState × List HandlerEvent) :=
  if st.alive = false then some (st, [])
  else
    match buildChain ((st.carry ++ chunk).length + 1) (decode (st.carry ++ chunk)) with
    | none => none
    | some chain =>
      match chain.getLast? with
      | some (.ok f) =>
        if f.waiting then some ({ st with carry := f.next }, [])
        else
          let o := dispatchList mp st.frames st.carry chain
          some (⟨o.carry, o.frames, !o.events.contains .destroy⟩, o.events)
      | _ =>
        let o := dispatchList mp st.frames st.carry chain
        some (⟨o.carry, o.frames, !o.events.contains .destroy⟩, o.events)

/-- Delivering a sequence of chunks through consecutive data events,
concatenating the emitted events. -/
def runChunks (mp : Int) (st : ConnState) : List (List Nat) →
    Option (ConnState × List HandlerEvent)
  | [] => some (st, [])
  | c :: cs =>
    match dataEvent mp st c with
    | none => none
    | some (st2, evs) =>
      match runChunks mp st2 cs with
      | none => none
      | some (st3, evs2) => some (st3, evs ++ evs2)

/-- A complete masked text frame carrying "A" (key 00 00 00 00). -/
def frameA : List Nat := [129, 129, 0, 0, 0, 0, 65]

/-- A complete masked text frame carrying "B" (key 00 00 00 00). -/
def frameB : List Nat := [129, 129, 0, 0, 0, 0, 66]

/-- A pending text fragment "A" (opcode 1, FIN = 0), as decoded. -/
def fragTextA : Frame := ⟨false, 1, 1, [65], [], false⟩

/-- A final continuation fragment "B" (opcode 0, FIN = 1), as decoded. -/
def contFinB : Frame := ⟨true, 0, 1, [66], [], false⟩

/-- Claim C2: re-segmenting the valid two-frame stream `frameA ++ frameB`
into the chunks (frameA plus the first two bytes of frameB, rest of frameB)
does not dispatch the same frame sequence as a single read: the single read
emits both messages, but the chunked delivery emits only "B" — the fully
decoded frame "A" is discarded because the read's last decode result is
waiting and the handler then dispatches nothing from that read. -/
theorem resegmentation_loses_frames :
    runChunks 2621440 ⟨[], [], true⟩ [frameA ++ frameB] =
      some (⟨[], [], true⟩, [.message true [65], .message true [66]]) ∧
    runChunks 2621440 ⟨[], [], true⟩ [frameA ++ frameB.take 2, frameB.drop 2] =
      some (⟨[], [], true⟩, [.message true [66]]) := by decide

/-- Claim C3: the fragmented message whose first fragment is the text frame
"A" (opcode 1, FIN = 0) followed by the final continuation "B" concatenates
the payloads but is emitted as raw bytes (`message false`), not decoded as
text: the source tests `decoded.opcode == 1` inside the `opcode == 0` branch,
which is dead code. -/
theorem fragmented_text_emitted_as_binary :
    handleFrame 2621440 [] (some fragTextA) = ⟨[fragTextA], [], some []⟩ ∧
    handleFrame 2621440 [fragTextA] (some contFinB) =
      ⟨[], [.message false [65, 66]], some []⟩ := by decide

/-- Claim C4: neither a continuation frame in Idle state (no pending
fragments) nor a text frame in Assembling state triggers close 1003: the
continuation "B" arriving with no fragments pending is emitted as a message,
and a final text frame arriving while fragment "A" is pending is emitted as a
standalone message with the fragment list untouched.  No close event is
produced in either case. -/
theorem no_close_1003_on_bad_fragmentation :
    handleFrame 2621440 [] (some contFinB) =
      ⟨[], [.message false [66]], some []⟩ ∧
    handleFrame 2621440 [fragTextA] (some ⟨true, 1, 1, [67], [], false⟩) =
      ⟨[fragTextA], [.message true [67]], some []⟩ := by decide

/-- Claim C5: with maxPayload > 0, a frame whose payloadLength plus the sum of
the pending fragments' payloadLengths exceeds maxPayload makes the handler
emit close 1009 "Message Too Big" and destroy the client, before any opcode
dispatch; when the cumulative total stays within maxPayload, a final
continuation frame delivers the assembled message. -/
theorem maxPayload_enforced (mp : Int) (frames : List Frame) (d : Frame)
    (hmp : 0 < mp) :
    (mp < ((d.payloadLength + sumPayload frames : Nat) : Int) →
       handleFrame mp frames (some d) =
         ⟨frames, [.close 1009 "Message Too Big", .destroy], none⟩) ∧
    (d.opcode = 0 → d.FIN = true → d.waiting = false →
     ((d.payloadLength + sumPayload frames : Nat) : Int) ≤ mp →
       handleFrame mp frames (some d) =
         ⟨[], [.message false (concatPayloads (frames ++ [d]))], some d.next⟩) := by
  constructor
  · intro h
    simp only [handleFrame]
    rw [if_pos ⟨hmp, h⟩]
  · intro h0 hfin hw hle
    simp only [handleFrame]
    rw [if_neg (fun hcon => absurd hcon.2 (not_lt.mpr hle))]
    simp [h0, hfin, hw]

/-- Witness for C5: maxPayload 10, pending fragment "A"; a 100-byte
continuation closes with 1009, while the small continuation "B" delivers the
assembled message "AB". -/
theorem maxPayload_enforced_witness :
    handleFrame 10 [fragTextA] (some ⟨true, 0, 100, [], [], false⟩) =
      ⟨[fragTextA], [.close 1009 "Message Too Big", .destroy], none⟩ ∧
    handleFrame 10 [fragTextA] (some contFinB) =
      ⟨[], [.message false [65, 66]], some []⟩ := by
  constructor
  · exact (maxPayload_enforced 10 [fragTextA] ⟨true, 0, 100, [], [], false⟩
      (by decide)).1 (by decide)
  · have h := (maxPayload_enforced 10 [fragTextA] contFinB (by decide)).2
      rfl rfl rfl (by decide)
    rw [h]
    decide

/-- Timer state of the inbound-ping anti-DoS machinery (rev 2 lines 851-884):
`emitT` is the deadline of `pong.timer` (the coalesced pong write scheduled
3 s after the last ping), `abortT` the deadline of `pong.timerSecurity`
(armed 9 s after the first unanswered ping), `pongs` the times at which pong
frames were written, `closedAt` the time and code of a terminal close. -/
structure PongState where
  emitT : Option Nat
  abortT : Option Nat
  pongs : List Nat
  closedAt : Option (Nat × Nat)
deriving DecidableEq

/-- Fire every timer due strictly before time `t` (Node's event loop runs due
timer callbacks before a later event; on equal deadlines the earlier-created
abort timer runs first).  The emit callback writes the pong and clears the
abort timer; the abort callback emits close 1006 "Closed Abnormally" and
destroys the client, after which nothing more runs. -/
def fireDue (t : Nat) (s : PongState) : PongState :=
  if s.closedAt.isSome then s
  else
    match s.emitT, s.abortT with
    | some e, some a =>
      if a < t ∧ a ≤ e then { s with closedAt := some (a, 1006) }
      else if e < t then { s with pongs := s.pongs ++ [e], emitT := none, abortT := none }
      else s
    | some e, none => if e < t then { s with pongs := s.pongs ++ [e], emitT := none } else s
    | none, some a => if a < t then { s with closedAt := some (a, 1006) } else s
    | none, none => s

/-- An inbound ping (payload ≤ 125) arriving at time `t`: fire due timers,
then `clearTimeout(pong.timer); pong.timer = setTimeout(3000)` and, if
`pong.timerSecurity` is null, `setTimeout(3000 * 3)` (rev 2 lines 855-876). -/
def pingStep (s : PongState) (t : Nat) : PongState :=
  let s2 := fireDue t s
  if s2.closedAt.isSome then s2
  else { s2 with emitT := some (t + 3000),
                 abortT := match s2.abortT with | none => some (t + 9000) | some a => some a }

/-- Let every remaining timer fire (no more pings ever arrive). -/
def fireAll (s : PongState) : PongState :=
  if s.closedAt.isSome then s
  else
    match s.emitT, s.abortT with
    | some e, some a =>
      if a ≤ e then { s with closedAt := some (a, 1006) }
      else { s with pongs := s.pongs ++ [e], emitT := none, abortT := none }
    | some e, none => { s with pongs := s.pongs ++ [e], emitT := none }
    | none, some a => { s with closedAt := some (a, 1006) }
    | none, none => s

/-- Timer state of a fresh client record (both timers null). -/
def initPong : PongState := ⟨none, none, [], none⟩

/-- Outcome of an inbound ping train at the given arrival times. -/
def runPings (ts : List Nat) : PongState := fireAll (ts.foldl pingStep initPong)

/-- Consecutive entries at least 3000 ms apart. -/
def spaced : List Nat → Bool
  | a :: b :: rest => decide (a + 3000 ≤ b) && spaced (b :: rest)
  | _ => true

/-- Strictly increasing arrival times, all at least `now`. -/
def incrFrom (now : Nat) : List Nat → Bool
  | [] => true
  | t :: rest => decide (now ≤ t) && incrFrom (t + 1) rest

/-- Strictly increasing arrival times with every gap below 3000 ms. -/
def rapidFrom (prev : Nat) : List Nat → Bool
  | [] => true
  | t :: rest => decide (prev < t) && decide (t < prev + 3000) && rapidFrom t rest

/-- Last element, or the default for an empty list. -/
def lastD (d : Nat) : List Nat → Nat
  | [] => d
  | t :: r => lastD t r

/-- Invariant for the pong-rate bound: written pongs are 3000 ms apart, lie in
the past, and any scheduled emit is at least 3000 ms after each of them. -/
def InvA (now : Nat) (s : PongState) : Prop :=
  spaced s.pongs = true ∧
  (∀ p ∈ s.pongs, p < now) ∧
  (∀ e, s.emitT = some e → ∀ p ∈ s.pongs, p + 3000 ≤ e)

theorem spaced_append (l : List Nat) (e : Nat) (hs : spaced l = true)
    (h : ∀ p ∈ l, p + 3000 ≤ e) : spaced (l ++ [e]) = true := by
  induction l with
  | nil => rfl
  | cons a rest ih =>
    cases rest with
    | nil =>
      have ha := h a (by simp)
      simp [spaced, ha]
    | cons b r =>
      simp only [spaced, Bool.and_eq_true, decide_eq_true_eq] at hs
      have ih2 := ih hs.2 (fun p hp => h p (by simp at hp ⊢; tauto))
      simp only [List.cons_append, spaced, Bool.and_eq_true, decide_eq_true_eq] at ih2 ⊢
      exact ⟨hs.1, ih2⟩

theorem fireDue_invA (t now : Nat) (s : PongState) (hnow : now ≤ t) (h : InvA now s) :
    InvA t (fireDue t s) := by
  obtain ⟨et, ab, ps, cl⟩ := s
  obtain ⟨h1, h2, h3⟩ := h
  simp only [InvA] at *
  have h2' : ∀ p ∈ ps, p < t := fun p hp => lt_of_lt_of_le (h2 p hp) hnow
  rcases cl with _ | c
  case mk.intro.intro.some =>
    simp only [fireDue, Option.isSome_some, if_true]
    exact ⟨h1, h2', h3⟩
  case mk.intro.intro.none =>
    rcases et with _ | e <;> rcases ab with _ | a
    · simp only [fireDue, Option.isSome_none, Bool.false_eq_true, if_false]
      exact ⟨h1, h2', h3⟩
    · simp only [fireDue, Option.isSome_none, Bool.false_eq_true, if_false]
      split_ifs
      · exact ⟨h1, h2', fun e h' => by simp at h'⟩
      · exact ⟨h1, h2', fun e h' => by simp at h'⟩
    · simp only [fireDue, Option.isSome_none, Bool.false_eq_true, if_false]
      split_ifs with hfire
      · refine ⟨spaced_append _ _ h1 (h3 e rfl), ?_, ?_⟩
        · intro p hp
          simp only [List.mem_append, List.mem_singleton] at hp
          rcases hp with hp | rfl
          · exact h2' p hp
          · exact hfire
        · intro e' h'
          simp at h'
      · exact ⟨h1, h2', fun e' h' => by simp at h'; subst h'; exact h3 _ rfl⟩
    · simp only [fireDue, Option.isSome_none, Bool.false_eq_true, if_false]
      split_ifs with hclose hfire
      · exact ⟨h1, h2', fun e' h' => by simp at h'; subst h'; exact h3 _ rfl⟩
      · refine ⟨spaced_append _ _ h1 (h3 e rfl), ?_, ?_⟩
        · intro p hp
          simp only [List.mem_append, List.mem_singleton] at hp
          rcases hp with hp | rfl
          · exact h2' p hp
          · exact hfire
        · intro e' h'
          simp at h'
      · exact ⟨h1, h2', fun e' h' => by simp at h'; subst h'; exact h3 _ rfl⟩

theorem pingStep_invA (t now : Nat) (s : PongState) (hnow : now ≤ t) (h : InvA now s) :
    InvA (t + 1) (pingStep s t) := by
  have hf := fireDue_invA t now s hnow h
  obtain ⟨h1, h2, h3⟩ := hf
  rw [pingStep]
  split_ifs
  · exact ⟨h1, fun p hp => Nat.lt_succ_of_lt (h2 p hp), h3⟩
  · refine ⟨h1, fun p hp => Nat.lt_succ_of_lt (h2 p hp), ?_⟩
    intro e' h'
    simp only [Option.some.injEq] at h'
    subst h'
    intro p hp
    have := h2 p hp
    omega

theorem foldl_invA (ts : List Nat) : ∀ (now : Nat) (s : PongState),
    incrFrom now ts = true → InvA now s → ∃ m, InvA m (ts.foldl pingStep s) := by
  induction ts with
  | nil => exact fun now s _ h => ⟨now, h⟩
  | cons t rest ih =>
    intro now s hinc h
    simp only [incrFrom, Bool.and_eq_true, decide_eq_true_eq] at hinc
    exact ih (t + 1) (pingStep s t) hinc.2 (pingStep_invA t now s hinc.1 h)

theorem fireAll_spaced (s : PongState) (m : Nat) (h : InvA m s) :
    spaced (fireAll s).pongs = true := by
  obtain ⟨et, ab, ps, cl⟩ := s
  obtain ⟨h1, h2, h3⟩ := h
  simp only [InvA] at *
  rcases cl with _ | c
  case intro.intro.some => simpa [fireAll] using h1
  case intro.intro.none =>
    rcases et with _ | e <;> rcases ab with _ | a <;>
      simp only [fireAll, Option.isSome_none, Bool.false_eq_true, if_false]
    · exact h1
    · exact h1
    · simpa using spaced_append _ _ h1 (h3 e rfl)
    · split_ifs
      · simpa using h1
      · simpa using spaced_append _ _ h1 (h3 e rfl)

/-- Invariant for the abort path under a rapid ping train starting at `t0`
whose last ping so far was at `lastT`: either the 1006 close already fired at
`t0 + 9000`, or no pong was ever written, the abort timer is still armed for
`t0 + 9000` and the emit timer for `lastT + 3000`. -/
def InvB (t0 lastT : Nat) (s : PongState) : Prop :=
  s.closedAt = some (t0 + 9000, 1006) ∨
  (s.pongs = [] ∧ s.closedAt = none ∧ s.abortT = some (t0 + 9000) ∧
   s.emitT = some (lastT + 3000))

theorem pingStep_invB (t0 lastT t : Nat) (s : PongState)
    (h : InvB t0 lastT s) (h1 : lastT < t) (h2 : t < lastT + 3000) :
    InvB t0 t (pingStep s t) := by
  obtain ⟨et, ab, ps, cl⟩ := s
  rcases h with hcl | ⟨hp, hc, ha, he⟩
  · left
    simp only at hcl
    subst hcl
    simp [pingStep, fireDue]
  · simp only at hp hc ha he
    subst hp; subst hc; subst ha; subst he
    rw [pingStep, fireDue]
    simp only [Option.isSome_none, Bool.false_eq_true, if_false]
    by_cases hclose : t0 + 9000 < t ∧ t0 + 9000 ≤ lastT + 3000
    · rw [if_pos hclose]
      left
      simp
    · rw [if_neg hclose, if_neg (by omega : ¬(lastT + 3000 < t))]
      right
      simp

theorem foldl_invB (rest : List Nat) : ∀ (t0 lastT : Nat) (s : PongState),
    InvB t0 lastT s → rapidFrom lastT rest = true →
    InvB t0 (lastD lastT rest) (rest.foldl pingStep s) := by
  induction rest with
  | nil => exact fun t0 lastT s h _ => h
  | cons t r ih =>
    intro t0 lastT s h hr
    simp only [rapidFrom, Bool.and_eq_true, decide_eq_true_eq] at hr
    exact ih t0 t (pingStep s t) (pingStep_invB t0 lastT t s h hr.1.1 hr.1.2) hr.2

theorem runPings_rapid_close (t0 : Nat) (rest : List Nat)
    (hr : rapidFrom t0 rest = true) (hlong : t0 + 9000 ≤ lastD t0 rest) :
    (runPings (t0 :: rest)).closedAt = some (t0 + 9000, 1006) := by
  have hs1 : pingStep initPong t0 =
      ⟨some (t0 + 3000), some (t0 + 9000), [], none⟩ := by
    simp [pingStep, fireDue, initPong]
  have hfold := foldl_invB rest t0 t0 (pingStep initPong t0)
    (by rw [hs1]; right; exact ⟨rfl, rfl, rfl, rfl⟩) hr
  rw [runPings]
  simp only [List.foldl_cons]
  generalize List.foldl pingStep (pingStep initPong t0) rest = sfin at hfold
  obtain ⟨et, ab, ps, cl⟩ := sfin
  rcases hfold with hcl | ⟨hp, hc, ha, he⟩
  · simp only at hcl
    subst hcl
    simp [fireAll]
  · simp only at hp hc ha he
    subst hp; subst hc; subst ha; subst he
    rw [fireAll]
    simp only [Option.isSome_none, Bool.false_eq_true, if_false]
    rw [if_pos (by omega : t0 + 9000 ≤ lastD t0 rest + 3000)]

theorem runPings_spaced (ts : List Nat) (hinc : incrFrom 0 ts = true) :
    spaced (runPings ts).pongs = true := by
  obtain ⟨m, hm⟩ := foldl_invA ts 0 initPong hinc
    ⟨rfl, by intro p hp; simp [initPong] at hp, by intro e h'; simp [initPong] at h'⟩
  exact fireAll_spaced _ m hm

/-- Claim C7: for any sequence of inbound pings at strictly increasing times,
the pong echoes written are at least 3000 ms apart (each ping cancels the
pending emit timer and reschedules it 3 s out), and if the pings keep arriving
with every gap under 3 s for at least 9 s, no emitted pong ever clears the
abort timer and the server closes with 1006 "Closed Abnormally" at
`t0 + 9000`. -/
theorem inbound_ping_coalescing :
    (∀ ts : List Nat, incrFrom 0 ts = true →
       spaced (runPings ts).pongs = true) ∧
    (∀ (t0 : Nat) (rest : List Nat), rapidFrom t0 rest = true →
       t0 + 9000 ≤ lastD t0 rest →
       (runPings (t0 :: rest)).closedAt = some (t0 + 9000, 1006)) :=
  ⟨runPings_spaced, runPings_rapid_close⟩

/-- Witness for C7: pings at 0/4000/8000 give spaced pongs, and a rapid train
0, 2500, 5000, 7500, 10000 closes 1006 at 9000. -/
theorem inbound_ping_coalescing_witness :
    spaced (runPings [0, 4000, 8000]).pongs = true ∧
    (runPings [0, 2500, 5000, 7500, 10000]).closedAt = some (9000, 1006) :=
  ⟨inbound_ping_coalescing.1 [0, 4000, 8000] (by decide),
   inbound_ping_coalescing.2 0 [2500, 5000, 7500, 10000] (by decide) (by decide)⟩

/-!
Ping / pong-deadline liveness (rev 2 `ping`, lines 1355-1382, and the
opcode-10 pong branch, lines 886-903).  `content` is `ping.content`
(tokens modelled as `Nat`), `deadlines` the expiry times of every armed
(uncancelled, unfired) deadline timer — each would emit close
{1011, "Unexpected Condition"} and destroy the client — and `slot` the
deadline of the timer object currently referenced by `ping.timer`.
-/

structure PingLive where
  content : Nat
  deadlines : List Nat
  slot : Option Nat
deriving DecidableEq

/-- `ping(clientId, pongTimeout)` at time `now`: sets `ping.content` to the
clientId and, when `pongTimeout > 0`, assigns a fresh deadline timer into
`ping.timer` WITHOUT clearing the previous one — the overwritten timer stays
armed but unreachable. -/
def pingCall (cid now pongTimeout : Nat) (s : PingLive) : PingLive :=
  if 0 < pongTimeout then
    { content := cid, deadlines := s.deadlines ++ [now + pongTimeout],
      slot := some (now + pongTimeout) }
  else
    { s with content := cid }

/-- The opcode-10 branch for a pong with payload ≤ 125: a payload matching
`ping.content` rotates the content to a fresh random token and runs
`clearTimeout(ping.timer)` — cancelling only the timer currently referenced by
the slot; a non-matching pong changes nothing. -/
def pongReceive (payload fresh : Nat) (s : PingLive) : PingLive :=
  if payload == s.content then
    { content := fresh,
      deadlines := match s.slot with
                   | some d => s.deadlines.erase d
                   | none => s.deadlines,
      slot := s.slot }
  else s

/-- Claim C9 (counterexample): two pings are sent (times 0 and 1, timeout
5000), then the matching pong arrives.  The pong rotates the content and
clears the referenced timer (deadline 5001), but the deadline timer armed by
the first ping (5000) was orphaned by the second `ping.timer` assignment and
stays armed — it will still fire the close-1011 path despite the correct and
timely pong. -/
theorem orphaned_deadline_survives_pong :
    pongReceive 7 99 (pingCall 7 1 5000 (pingCall 7 0 5000 ⟨42, [], none⟩)) =
      ⟨99, [5000], some 5001⟩ := by decide

/-- Claim C9 (amended): a pong whose payload matches `ping.expectedContent`
rotates the content and clears the deadline timer currently referenced by
`ping.timer` (the most recently armed); when that referenced timer is the only
armed one — the single-outstanding-ping case — no deadline timer survives, so
no close-1011 fires.  Deadline timers orphaned by a later ping overwriting
`ping.timer` are not cleared.  A non-matching pong changes nothing. -/
theorem pong_rotates_and_clears_referenced_deadline (s : PingLive)
    (payload fresh : Nat) :
    (payload = s.content →
       (pongReceive payload fresh s).content = fresh ∧
       (pongReceive payload fresh s).deadlines =
         (match s.slot with
          | some d => s.deadlines.erase d
          | none => s.deadlines)) ∧
    (payload ≠ s.content → pongReceive payload fresh s = s) ∧
    (payload = s.content → ∀ d, s.slot = some d → s.deadlines = [d] →
       (pongReceive payload fresh s).deadlines = []) := by
  refine ⟨fun h => ?_, fun h => ?_, fun h d hs hd => ?_⟩
  · simp [pongReceive, h]
  · simp [pongReceive, h]
  · simp [pongReceive, h, hs, hd]

/-- Witness for C9's amended statement: a single outstanding ping (content 7,
referenced deadline 5000) answered by the matching pong leaves no armed
deadline and rotates the content; the non-matching pong 8 changes nothing. -/
theorem pong_rotates_and_clears_referenced_deadline_witness :
    (pongReceive 7 99 ⟨7, [5000], some 5000⟩).content = 99 ∧
    (pongReceive 7 99 ⟨7, [5000], some 5000⟩).deadlines = [] ∧
    pongReceive 8 99 ⟨7, [5000], some 5000⟩ = ⟨7, [5000], some 5000⟩ := by
  refine ⟨(pong_rotates_and_clears_referenced_deadline ⟨7, [5000], some 5000⟩ 7 99).1
      rfl |>.1, ?_, ?_⟩
  · exact (pong_rotates_and_clears_referenced_deadline ⟨7, [5000], some 5000⟩ 7 99).2.2
      rfl 5000 rfl rfl
  · exact (pong_rotates_and_clears_referenced_deadline ⟨7, [5000], some 5000⟩ 8 99).2.1
      (by decide)

/-!
Origin policy of the handshake (rev 2 lines 670 and 682-686).  Header values
are lists of characters.  Node lowercases incoming header names, so the
fallback key `sec-webSocket-origin` (with its capital S) can never be present;
it is still modelled as the second operand of the JS `||`.
-/

/-- `pat` is a prefix of the second list (helper for `includes`). -/
def startsWith : List Char → List Char → Bool
  | [], _ => true
  | _ :: _, [] => false
  | a :: pr, b :: sr => a == b && startsWith pr sr

/-- JavaScript `s.includes(pat)`: `pat` occurs as a contiguous substring. -/
def containsL : List Char → List Char → Bool
  | [], pat => pat.isEmpty
  | c :: rest, pat => startsWith pat (c :: rest) || containsL rest pat

theorem startsWith_iff (pat : List Char) : ∀ s, startsWith pat s = true ↔ ∃ r, s = pat ++ r := by
  induction pat with
  | nil => intro s; simp [startsWith]
  | cons a pr ih =>
    intro s
    cases s with
    | nil => simp [startsWith]
    | cons b sr =>
      simp only [startsWith, Bool.and_eq_true, beq_iff_eq, ih sr, List.cons_append,
        List.cons.injEq]
      constructor
      · rintro ⟨rfl, r, rfl⟩
        exact ⟨r, rfl, rfl⟩
      · rintro ⟨r, rfl, rfl⟩
        exact ⟨rfl, r, rfl⟩

theorem containsL_iff (pat : List Char) : ∀ s, containsL s pat = true ↔ ∃ l r, s = l ++ pat ++ r := by
  intro s
  induction s with
  | nil =>
    simp only [containsL, List.isEmpty_iff]
    constructor
    · rintro rfl
      exact ⟨[], [], rfl⟩
    · rintro ⟨l, r, h⟩
      rcases List.append_eq_nil.mp (List.append_eq_nil.mp h.symm).1 with ⟨_, h2⟩
      · exact h2
  | cons c rest ih =>
    simp only [containsL, Bool.or_eq_true, startsWith_iff, ih]
    constructor
    · rintro (⟨r, h⟩ | ⟨l, r, h⟩)
      · exact ⟨[], r, by simpa using h⟩
      · exact ⟨c :: l, r, by simp [h]⟩
    · rintro ⟨l, r, h⟩
      cases l with
      | nil =>
        left
        exact ⟨r, by simpa using h⟩
      | cons x xs =>
        right
        simp only [List.cons_append, List.cons.injEq] at h
        exact ⟨xs, r, h.2⟩

/-- Whitespace for `String.prototype.trim` (the common cases). -/
def isWS (c : Char) : Bool := c == ' ' || c == '\t' || c == '\n' || c == '\r'

/-- JavaScript `s.trim()`. -/
def trimL (s : List Char) : List Char :=
  ((s.dropWhile isWS).reverse.dropWhile isWS).reverse

/-- JavaScript `a || b` on possibly-missing header strings: `undefined` and
the empty string are falsy. -/
def jsOrS : Option (List Char) → Option (List Char) → Option (List Char)
  | some s, fb => if s.isEmpty then fb else some s
  | none, fb => fb

/-- Outcome of the origin stage: an HTTP error response written and the
socket destroyed, acceptance (fall through to the next check), or an
uncaught TypeError (the JS `(undefined).trim()` at line 670). -/
inductive UpgradeOutcome where
  | response (status : Nat)
  | accepted
  | thrown
deriving DecidableEq

/-- Truthiness of the JS `Array.prototype.find` result: `undefined` and the
empty string are falsy. -/
def truthy : Option (List Char) → Bool
  | some a => !a.isEmpty
  | none => false

/-- The origin normalization and check (rev 2 lines 670, 682-686):
`req.headers['origin'] = (req.headers['origin'] || req.headers['sec-webSocket-origin']).trim()`
throws a TypeError when both are missing; otherwise reject with 403 unless the
origin contains the trimmed host or `allowOrigin` (the setter-normalized
array) has an element equal to `'*'` or to the trimmed origin. -/
def originGate (origin secWsOrigin : Option (List Char)) (host : List Char)
    (allowOrigin : List (List Char)) : UpgradeOutcome :=
  match jsOrS origin secWsOrigin with
  | none => .thrown
  | some raw =>
    let o := trimL raw
    if !containsL o (trimL host) &&
       !truthy (allowOrigin.find? (fun a => a == ['*'] || a == trimL o)) then
      .response 403
    else
      .accepted

theorem truthy_find_iff (p : List Char → Bool) (allow : List (List Char))
    (hallow : [] ∉ allow) :
    truthy (allow.find? p) = true ↔ ∃ a ∈ allow, p a = true := by
  induction allow with
  | nil => simp [truthy]
  | cons a rest ih =>
    have hne : a ≠ [] := fun h => hallow (by simp [h])
    have hrest : [] ∉ rest := fun h => hallow (by simp [h])
    cases hpa : p a with
    | false =>
      simp [List.find?_cons, hpa, List.exists_mem_cons_iff, ih hrest]
    | true =>
      simp [List.find?_cons, hpa, truthy, List.isEmpty_iff, hne,
        List.exists_mem_cons_iff]

/-- Claim C8 (amended): when the Origin header is present (nonempty,
normalized), the handshake accepts iff the Origin contains the Host, or
`allowOrigin` contains `'*'`, or `allowOrigin` contains the exact Origin;
otherwise it responds 403 Forbidden (the outcome is always one of the two).
The `allowOrigin` elements are nonempty as guaranteed by the setter's
normalization.  A missing Origin header instead throws (see the
counterexample), so the claim's "missing Origin → 403" does not hold. -/
theorem origin_policy (o host : List Char) (allow : List (List Char))
    (ho : o ≠ []) (htrim : trimL o = o) (hallow : [] ∉ allow) :
    (originGate (some o) none host allow = .accepted ↔
       (∃ l r, o = l ++ trimL host ++ r) ∨ ['*'] ∈ allow ∨ o ∈ allow) ∧
    (originGate (some o) none host allow = .accepted ∨
     originGate (some o) none host allow = .response 403) := by
  have hjs : jsOrS (some o) none = some o := by
    simp [jsOrS, List.isEmpty_iff, ho]
  constructor
  · rw [originGate, hjs]
    simp only [htrim]
    split_ifs with hcond
    · simp only [Bool.and_eq_true, Bool.not_eq_true'] at hcond
      constructor
      · intro h
        exact absurd h (by simp)
      · intro hr
        exfalso
        rcases hr with hsub | hstar | hmem
        · rw [← containsL_iff] at hsub
          rw [hsub] at hcond
          exact absurd hcond.1 (by simp)
        · have ht : truthy (allow.find? (fun a => a == ['*'] || a == o)) = true :=
            (truthy_find_iff _ allow hallow).mpr ⟨['*'], hstar, by simp⟩
          rw [ht] at hcond
          exact absurd hcond.2 (by simp)
        · have ht : truthy (allow.find? (fun a => a == ['*'] || a == o)) = true :=
            (truthy_find_iff _ allow hallow).mpr ⟨o, hmem, by simp⟩
          rw [ht] at hcond
          exact absurd hcond.2 (by simp)
    · simp only [true_iff]
      have hor : containsL o (trimL host) = true ∨
          truthy (allow.find? (fun a => a == ['*'] || a == o)) = true := by
        rcases hb : containsL o (trimL host) <;>
          rcases hb2 : truthy (allow.find? (fun a => a == ['*'] || a == o)) <;>
          simp_all
      rcases hor with hsub | htr
      · exact Or.inl ((containsL_iff _ _).mp hsub)
      · obtain ⟨a, ha, hp⟩ := (truthy_find_iff _ allow hallow).mp htr
        simp only [Bool.or_eq_true, beq_iff_eq] at hp
        rcases hp with rfl | rfl
        · exact Or.inr (Or.inl ha)
        · exact Or.inr (Or.inr ha)
  · rw [originGate, hjs]
    simp only [htrim]
    split_ifs
    · right; rfl
    · left; rfl

/-- Claim C8 (counterexample): with no `origin` and no `sec-websocket-origin`
header the handler throws a TypeError at the normalization line, before any
check — it does not respond 403 Forbidden and does not destroy the socket. -/
theorem missing_origin_throws :
    originGate none none ['x'] [] = UpgradeOutcome.thrown := by decide

/-- Witness for C8's amended statement: origin "http://x" with host "x" and
empty allowOrigin is accepted because the origin contains the host. -/
theorem origin_policy_witness :
    originGate (some ['h','t','t','p',':','/','/','x']) none ['x'] [] =
      UpgradeOutcome.accepted := by
  refine ((origin_policy ['h','t','t','p',':','/','/','x'] ['x'] []
    (by decide) (by decide) (by decide)).1).mpr ?_
  exact Or.inl ⟨['h','t','t','p',':','/','/'], [], by decide⟩

/-!
Public facade lookup behaviour (rev 2 lines 1180-1410).  The registry is an
association list `clientId → destroyed-flag of the socket`; `Facade.notFound`
is the rev 2 `throw new ReferenceError('Not Found')` (rev 1 returns null in
the same cases).  `socket.end(); socket.destroy()` marks the socket destroyed
synchronously, and `delete this.#clients[clientId]` returns true.
-/

inductive Facade (α : Type) where
  | ok (a : α)
  | notFound
deriving DecidableEq

/-- `clientId in this.#clients`, returning the socket's destroyed flag. -/
def lookupClient (reg : List (Nat × Bool)) (id : Nat) : Option Bool :=
  match reg.find? (fun e => e.1 == id) with
  | some e => some e.2
  | none => none

/-- `delete this.#clients[clientId]`. -/
def removeClient (reg : List (Nat × Bool)) (id : Nat) : List (Nat × Bool) :=
  reg.filter (fun e => !(e.1 == id))

/-- `close` (rev 2 lines 1326-1353): present id → end/destroy if needed, then
delete and return true (false if destruction did not complete); absent id →
ReferenceError. -/
def closeClient (reg : List (Nat × Bool)) (id : Nat) : Facade Bool × List (Nat × Bool) :=
  match lookupClient reg id with
  | some destroyed =>
    let destroyed2 := if !destroyed then true else destroyed
    if destroyed2 then (.ok true, removeClient reg id) else (.ok false, reg)
  | none => (.notFound, reg)

/-- Guard shared by every proxy method:
`clientId in this.#clients && !this.#clients[clientId].socket.destroyed`. -/
def liveGuard (reg : List (Nat × Bool)) (id : Nat) : Facade Unit :=
  match lookupClient reg id with
  | some destroyed => if !destroyed then .ok () else .notFound
  | none => .notFound

/-- `send` (rev 2 lines 1384-1410), outcome of the lookup guard. -/
def sendClient (reg : List (Nat × Bool)) (id : Nat) : Facade Unit := liveGuard reg id

/-- `ping` (rev 2 lines 1355-1382), outcome of the lookup guard. -/
def pingClient (reg : List (Nat × Bool)) (id : Nat) : Facade Unit := liveGuard reg id

/-- `url` (rev 2 lines 1311-1323), outcome of the lookup guard. -/
def urlClient (reg : List (Nat × Bool)) (id : Nat) : Facade Unit := liveGuard reg id

/-- `bytesRead` (rev 2 lines 1180-1192). -/
def bytesReadClient (reg : List (Nat × Bool)) (id : Nat) : Facade Unit := liveGuard reg id

/-- `bytesWritten` (rev 2 lines 1194-1206). -/
def bytesWrittenClient (reg : List (Nat × Bool)) (id : Nat) : Facade Unit := liveGuard reg id

/-- `isPaused` (rev 2 lines 1208-1220). -/
def isPausedClient (reg : List (Nat × Bool)) (id : Nat) : Facade Unit := liveGuard reg id

/-- `pause` (rev 2 lines 1222-1236). -/
def pauseClient (reg : List (Nat × Bool)) (id : Nat) : Facade Unit := liveGuard reg id

/-- `resume` (rev 2 lines 1252-1266). -/
def resumeClient (reg : List (Nat × Bool)) (id : Nat) : Facade Unit := liveGuard reg id

/-- `readyState` (rev 2 lines 1238-1250). -/
def readyStateClient (reg : List (Nat × Bool)) (id : Nat) : Facade Unit := liveGuard reg id

/-- `setEncoding` (rev 2 lines 1268-1280). -/
def setEncodingClient (reg : List (Nat × Bool)) (id : Nat) : Facade Unit := liveGuard reg id

/-- `setKeepAlive` (rev 2 lines 1282-1294). -/
def setKeepAliveClient (reg : List (Nat × Bool)) (id : Nat) : Facade Unit := liveGuard reg id

/-- `setNoDelay` (rev 2 lines 1296-1308). -/
def setNoDelayClient (reg : List (Nat × Bool)) (id : Nat) : Facade Unit := liveGuard reg id

/-- Claim C10: a clientId present in the registry whose socket is already
destroyed is removed by `close`, which returns true, while every other facade
method treats the same id as not-found (ReferenceError in rev 2, null in
rev 1); `close` reports not-found exactly for ids absent from the registry. -/
theorem close_succeeds_where_proxies_throw (reg : List (Nat × Bool)) (id : Nat) :
    (lookupClient reg id = some true →
       closeClient reg id = (.ok true, removeClient reg id) ∧
       sendClient reg id = .notFound ∧
       pingClient reg id = .notFound ∧
       urlClient reg id = .notFound ∧
       bytesReadClient reg id = .notFound ∧
       bytesWrittenClient reg id = .notFound ∧
       isPausedClient reg id = .notFound ∧
       pauseClient reg id = .notFound ∧
       resumeClient reg id = .notFound ∧
       readyStateClient reg id = .notFound ∧
       setEncodingClient reg id = .notFound ∧
       setKeepAliveClient reg id = .notFound ∧
       setNoDelayClient reg id = .notFound) ∧
    (lookupClient reg id = none → closeClient reg id = (.notFound, reg)) ∧
    (∀ d, lookupClient reg id = some d → (closeClient reg id).1 ≠ .notFound) := by
  refine ⟨fun h => ?_, fun h => ?_, fun d h => ?_⟩
  · refine ⟨?_, ?_, ?_, ?_, ?_, ?_, ?_, ?_, ?_, ?_, ?_, ?_, ?_⟩ <;>
      simp [closeClient, sendClient, pingClient, urlClient, bytesReadClient,
        bytesWrittenClient, isPausedClient, pauseClient, resumeClient,
        readyStateClient, setEncodingClient, setKeepAliveClient,
        setNoDelayClient, liveGuard, h]
  · simp [closeClient, h]
  · cases d <;> simp [closeClient, h]

/-- Witness for C10: registry [(5, destroyed)]: close removes id 5 and
returns true while send reports not-found, and id 7 is not-found for close. -/
theorem close_succeeds_where_proxies_throw_witness :
    closeClient [(5, true)] 5 = (.ok true, []) ∧
    sendClient [(5, true)] 5 = .notFound ∧
    closeClient [(5, true)] 7 = (.notFound, [(5, true)]) := by
  have h1 := (close_succeeds_where_proxies_throw [(5, true)] 5).1 (by decide)
  have h2 := (close_succeeds_where_proxies_throw [(5, true)] 7).2.1 (by decide)
  exact ⟨by rw [h1.1]; decide, h1.2.1, h2⟩
